import Mathlib

/-!
Shallow embedding of `src/pattern.rs` from the `sea-canal` crate.

The Rust core defines `PatternElem` (an enum of integer-transformation
operations), `CustomPatternElem` (a caller-supplied predicate plus display
label), and `Pattern` (a sequence of operations), together with
`get_operand`, `same_operator_type`, `extend_each`, iteration,
`has_repeating_types`, and `Display` rendering for both types.

Modelling conventions:
- Rust `i32` operands are modelled as `Int`; where overflow matters
  (`i32::abs` in the `Display` impl, which panics on `i32::MIN` in debug
  builds) it is made explicit via `Option`, with a `none` result modelling
  a panic.
- `CustomPatternElem.check` is a Rust function pointer `fn(i32,i32)->bool`;
  its derived `PartialEq`/`Hash` compare the pointer value (code address),
  so it is modelled as an abstract `Nat` identity.
- `PatternElem::Meta` carries a `Pattern`, which is a newtype over
  `Vec<PatternElem>`; the nested inductive stores the element list
  directly (the `Pattern` structure wrapper is introduced afterwards,
  since Lean structures cannot appear in mutual inductive blocks).
-/

namespace SeaCanal

/-- The smallest `i32` value, `-2^31`. -/
def i32Min : Int := -(2 ^ 31)

/-- The largest `i32` value, `2^31 - 1`. -/
def i32Max : Int := 2 ^ 31 - 1

/-- `CustomPatternElem { check: fn(i32, i32) -> bool, repr: String }`.
The function pointer is modelled by its identity (code address) as a `Nat`;
derived equality compares pointer identity and the label. -/
structure CustomPatternElem where
  check : Nat
  repr : String
deriving DecidableEq

/-- The `PatternElem` enum: one integer-to-integer operation.
Variants are listed alphabetically as in the source. -/
inductive PatternElem where
  | Const : Int → PatternElem
  | Cube : PatternElem
  | CubeRoot : PatternElem
  | Custom : CustomPatternElem → PatternElem
  | Div : Int → PatternElem
  | Meta : List PatternElem → PatternElem
  | Mod : Int → PatternElem
  | Mult : Int → PatternElem
  | Plus : Int → PatternElem
  | Square : PatternElem
  | SquareRoot : PatternElem

instance : Inhabited PatternElem := ⟨PatternElem.Square⟩

/-- `PatternElem::get_operand`: the numeric operand of
`Plus`/`Mult`/`Div`/`Mod`, `None` for every other variant. -/
def PatternElem.get_operand : PatternElem → Option Int
  | .Plus i | .Mult i | .Div i | .Mod i => some i
  | _ => none

/-- `PatternElem::same_operator_type`, arm for arm from the source `match`:
`Custom` compares the two payloads with `==`; each listed pair returns
`true`; everything else falls through to `false`.  Note the source pairs
`(Square, SquareRoot)` — not `(Square, Square)` — before
`(SquareRoot, SquareRoot)`. -/
def PatternElem.same_operator_type : PatternElem → PatternElem → Bool
  | .Custom p1, .Custom p2 => p1 == p2
  | .Const _, .Const _ => true
  | .Cube, .Cube => true
  | .CubeRoot, .CubeRoot => true
  | .Div _, .Div _ => true
  | .Mod _, .Mod _ => true
  | .Mult _, .Mult _ => true
  | .Plus _, .Plus _ => true
  | .Square, .SquareRoot => true
  | .SquareRoot, .SquareRoot => true
  | _, _ => false

/-- Is the element a `Meta` (nested-pattern) operation? (helper for
stating which variants the source's `same_operator_type` match misses). -/
def PatternElem.isMeta : PatternElem → Bool
  | .Meta _ => true
  | _ => false

mutual
/-- The `Display` impl for `PatternElem`, arm for arm from the source.
Result `none` models a panic: `Plus(i)` with `i < 0` prints `i.abs()`,
and `i32::MIN.abs()` overflows (panics under debug assertions). -/
def fmtElem : PatternElem → Option String
  | .Const i => some ("=" ++ toString i)
  | .Plus i =>
      if i < 0 then
        if i = i32Min then none else some ("-" ++ toString (-i))
      else some ("+" ++ toString i)
  | .Mult i => some ("*" ++ toString i)
  | .Div i => some ("/" ++ toString i)
  | .Mod i => some ("%" ++ toString i)
  | .Square => some "^2"
  | .Cube => some "^3"
  | .SquareRoot => some "root 2"
  | .CubeRoot => some "root 3"
  | .Custom c => some c.repr
  | .Meta l => Option.map (fun s => "[" ++ s ++ "...]") (fmtElems l)

/-- The `Display` impl for `Pattern`: writes each element in order,
preceded by `", "` for every element but the first; a panic in any
element's rendering propagates. -/
def fmtElems : List PatternElem → Option String
  | [] => some ""
  | [e] => fmtElem e
  | e :: e2 :: es =>
      match fmtElem e, fmtElems (e2 :: es) with
      | some s, some r => some (s ++ ", " ++ r)
      | _, _ => none
end

/-- `Pattern`: a newtype over a vector of operations. -/
structure Pattern where
  elems : List PatternElem

/-- `Pattern::new`. -/
def Pattern.new (elems : List PatternElem) : Pattern := ⟨elems⟩

/-- `Pattern::empty`. -/
def Pattern.empty : Pattern := Pattern.new []

/-- `Pattern::len`. -/
def Pattern.len (p : Pattern) : Nat := p.elems.length

/-- `Pattern::is_empty`. -/
def Pattern.is_empty (p : Pattern) : Bool := p.elems.isEmpty

/-- `FromIterator<PatternElem> for Pattern`: collect the iterated
sequence into a new `Pattern`. -/
def Pattern.from_iter (xs : List PatternElem) : Pattern := ⟨xs⟩

/-- `Pattern::iter`: the ordered read-only view of the elements. -/
def Pattern.iter (p : Pattern) : List PatternElem := p.elems

/-- `Pattern::extend_each`: for each candidate, clone the receiver's
vector, push the candidate, and wrap as a new `Pattern`. -/
def Pattern.extend_each (p : Pattern) (iter : List PatternElem) : List Pattern :=
  iter.map (fun elem => Pattern.new (p.elems ++ [elem]))

/-- `Display` for `Pattern`, via `fmtElems`. -/
def Pattern.fmt (p : Pattern) : Option String := fmtElems p.elems

/-- Modelled from the spec: the repository's `repeat` module (providing
`is_repeating_with_predicate`) is not under `src/`; only its contract is
given, in §4.3: true iff there is a block length `k` with `1 ≤ k < n`,
`k` dividing `n`, such that `eq(seq[i], seq[i mod k])` holds for every
index `i` in `[0, n)` (at least two full blocks then being present). -/
def is_repeating_with_predicate [Inhabited α] (xs : List α) (eq : α → α → Bool) : Bool :=
  (List.range xs.length).any fun k =>
    decide (0 < k) && decide (xs.length % k = 0) &&
      ((List.range xs.length).all fun i =>
        eq (xs.getD i default) (xs.getD (i % k) default))

/-- `Pattern::has_repeating_types`. -/
def Pattern.has_repeating_types (p : Pattern) : Bool :=
  is_repeating_with_predicate p.elems (fun x y => x.same_operator_type y)

/-- Encoding of an `i32` payload as hasher input (sign then magnitude):
the derived `Hash` feeds the operand's bytes, a pure function of the value. -/
def intCode (i : Int) : List Nat :=
  [if i < 0 then 1 else 0, i.natAbs]

/-- Hasher input of a `CustomPatternElem`: the function pointer value and
the string's length-prefixed bytes, as the derived `Hash` feeds them. -/
def customCode (c : CustomPatternElem) : List Nat :=
  c.check :: c.repr.length :: c.repr.toList.map Char.toNat

mutual
/-- The stream `#[derive(Hash)]` on `PatternElem` feeds the hasher:
the variant's discriminant (alphabetical position) followed by the
payload's own stream.  The hash value is a pure function of this stream,
so equal streams hash identically under any hasher. -/
def elemHashStream : PatternElem → List Nat
  | .Const i => 0 :: intCode i
  | .Cube => [1]
  | .CubeRoot => [2]
  | .Custom c => 3 :: customCode c
  | .Div i => 4 :: intCode i
  | .Meta l => 5 :: l.length :: elemsHashStream l
  | .Mod i => 6 :: intCode i
  | .Mult i => 7 :: intCode i
  | .Plus i => 8 :: intCode i
  | .Square => [9]
  | .SquareRoot => [10]

/-- Hasher input of a `Vec<PatternElem>`'s elements, in order. -/
def elemsHashStream : List PatternElem → List Nat
  | [] => []
  | e :: es => elemHashStream e ++ elemsHashStream es
end

/-- The stream `#[derive(Hash)]` on `Pattern` feeds the hasher: the
vector's length followed by each element's stream, in order. -/
def Pattern.hashStream (p : Pattern) : List Nat :=
  p.elems.length :: elemsHashStream p.elems

/-- Follows the spec's words (§4.2 `Rendering`): the elements' renderings
"comma-space separated, in sequence order", the empty list giving `""`. -/
def specRenderJoin : List String → String
  | [] => ""
  | [s] => s
  | s :: ss => s ++ ", " ++ specRenderJoin ss

/-! ## Theorems -/

/-- C5: `same_operator_type` ignores the numeric operand for the
operand-carrying variants: any two `Plus`, two `Mult`, two `Div`, two
`Mod`, or two `Const` operations are the same operator type, whatever
their operands. -/
theorem same_operator_type_ignores_operand (i j : Int) :
    PatternElem.same_operator_type (.Plus i) (.Plus j) = true ∧
    PatternElem.same_operator_type (.Mult i) (.Mult j) = true ∧
    PatternElem.same_operator_type (.Div i) (.Div j) = true ∧
    PatternElem.same_operator_type (.Mod i) (.Mod j) = true ∧
    PatternElem.same_operator_type (.Const i) (.Const j) = true :=
  ⟨rfl, rfl, rfl, rfl, rfl⟩

/-- C6: `get_operand` returns the numeric operand for
`Plus`/`Mult`/`Div`/`Mod` and `none` for every other variant — including
`Const`, despite its integer payload.  The `none` case is an ordinary
`Option` result; there is no error path. -/
theorem get_operand_spec (i : Int) (c : CustomPatternElem) (l : List PatternElem) :
    PatternElem.get_operand (.Plus i) = some i ∧
    PatternElem.get_operand (.Mult i) = some i ∧
    PatternElem.get_operand (.Div i) = some i ∧
    PatternElem.get_operand (.Mod i) = some i ∧
    PatternElem.get_operand (.Const i) = none ∧
    PatternElem.get_operand .Square = none ∧
    PatternElem.get_operand .Cube = none ∧
    PatternElem.get_operand .SquareRoot = none ∧
    PatternElem.get_operand .CubeRoot = none ∧
    PatternElem.get_operand (.Custom c) = none ∧
    PatternElem.get_operand (.Meta l) = none :=
  ⟨rfl, rfl, rfl, rfl, rfl, rfl, rfl, rfl, rfl, rfl, rfl⟩

/-- C10: two nested-pattern (`Meta`) operations are never the same
operator type — the `(Meta, Meta)` pair is absent from the source's match
arms and falls through to `false`, even for equal payload patterns. -/
theorem same_operator_type_meta_meta_false (p q : Pattern) :
    PatternElem.same_operator_type (.Meta p.elems) (.Meta q.elems) = false :=
  rfl

/-- C2 (bug evidence): `same_operator_type` is neither reflexive nor
symmetric as the spec states — the source pairs `(Square, SquareRoot)`
instead of `(Square, Square)`, so `Square` is not the same type as
itself, and `(Square, SquareRoot)` holds in one order only. -/
theorem same_operator_type_square_quirk :
    PatternElem.same_operator_type .Square .Square = false ∧
    PatternElem.same_operator_type .Square .SquareRoot = true ∧
    PatternElem.same_operator_type .SquareRoot .Square = false :=
  ⟨rfl, rfl, rfl⟩

/-- C9 (bug evidence): rendering `Plus(i32::MIN)` takes the negative
branch and computes `i.abs()`, which overflows for `i32::MIN` and panics
under debug assertions — rendering is not total. -/
theorem fmt_plus_i32min_panics : fmtElem (.Plus i32Min) = none := rfl

/-- C4 (counterexample): at `Plus(i32::MIN)` rendering does not produce
the table's `"-|i|"` — the `abs` computation overflows and the rendering
panics instead of returning `"-2147483648"`. -/
theorem fmt_plus_i32min_not_table :
    fmtElem (.Plus i32Min) ≠ some ("-" ++ toString ((2 : Int) ^ 31)) := by
  rw [show fmtElem (.Plus i32Min) = none from rfl]
  exact fun h => Option.noConfusion h

/-- C4 (amended): every variant renders to exactly the table's notation,
with `Plus(i)` for `i < 0` restricted to `i ≠ i32::MIN` (where `abs`
overflows): `Const(i)` to `"=i"`, `Plus(i)` to `"+i"` when `0 ≤ i` and to
`"-|i|"` when `i < 0`, `Mult(i)` to `"*i"`, `Div(i)` to `"/i"`, `Mod(i)`
to `"%i"`, `Square` to `"^2"`, `Cube` to `"^3"`, `SquareRoot` to
`"root 2"`, `CubeRoot` to `"root 3"`, `Custom` to its label verbatim, and
`Meta(p)` to `"["` + rendering of `p` + `"...]"`. -/
theorem fmt_elem_table (i : Int) (c : CustomPatternElem) (l : List PatternElem)
    (s : String) (hs : fmtElems l = some s) :
    fmtElem (.Const i) = some ("=" ++ toString i) ∧
    (0 ≤ i → fmtElem (.Plus i) = some ("+" ++ toString i)) ∧
    (i < 0 → i ≠ i32Min → fmtElem (.Plus i) = some ("-" ++ toString (-i))) ∧
    fmtElem (.Mult i) = some ("*" ++ toString i) ∧
    fmtElem (.Div i) = some ("/" ++ toString i) ∧
    fmtElem (.Mod i) = some ("%" ++ toString i) ∧
    fmtElem .Square = some "^2" ∧
    fmtElem .Cube = some "^3" ∧
    fmtElem .SquareRoot = some "root 2" ∧
    fmtElem .CubeRoot = some "root 3" ∧
    fmtElem (.Custom c) = some c.repr ∧
    fmtElem (.Meta l) = some ("[" ++ s ++ "...]") := by
  refine ⟨rfl, ?_, ?_, rfl, rfl, rfl, rfl, rfl, rfl, rfl, rfl, ?_⟩
  · intro h
    simp [fmtElem, not_lt.mpr h]
  · intro h hmin
    simp [fmtElem, h, hmin]
  · simp [fmtElem, hs]

/-- Witness for C4's amended table at concrete inputs. -/
theorem fmt_elem_table_witness :
    fmtElem (.Plus (-4)) = some ("-" ++ toString (-(-4 : Int))) ∧
    fmtElem (.Mult i32Min) = some ("*" ++ toString i32Min) ∧
    fmtElem (.Meta []) = some ("[" ++ "" ++ "...]") := by
  have h4 := fmt_elem_table (-4) ⟨0, "p"⟩ [] "" rfl
  have hmin := fmt_elem_table i32Min ⟨0, "p"⟩ [] "" rfl
  exact ⟨h4.2.2.1 (by decide) (by decide), hmin.2.2.2.1,
    h4.2.2.2.2.2.2.2.2.2.2.2⟩

/-- C3: `extend_each` yields one pattern per candidate, in candidate
order, each equal to the receiver with exactly that candidate appended;
the receiver (a value) is unchanged. -/
theorem extend_each_spec (p : Pattern) (cands : List PatternElem) :
    (p.extend_each cands).length = cands.length ∧
    ∀ (i : Nat) (hi : i < cands.length) (hi2 : i < (p.extend_each cands).length),
      (p.extend_each cands).get ⟨i, hi2⟩ = Pattern.new (p.elems ++ [cands.get ⟨i, hi⟩]) := by
  constructor
  · simp [Pattern.extend_each]
  · intro i hi hi2
    simp [Pattern.extend_each]

/-- Witness for C3 at the spec's example: extending `[+3, *2]` with
candidates `[/2, /3]`, the second result is `[+3, *2, /3]`. -/
theorem extend_each_spec_witness :
    ((Pattern.new [PatternElem.Plus 3, PatternElem.Mult 2]).extend_each
        [PatternElem.Div 2, PatternElem.Div 3]).get ⟨1, by decide⟩ =
      Pattern.new [PatternElem.Plus 3, PatternElem.Mult 2, PatternElem.Div 3] :=
  (extend_each_spec (Pattern.new [PatternElem.Plus 3, PatternElem.Mult 2])
    [PatternElem.Div 2, PatternElem.Div 3]).2 1 (by decide) (by decide)

/-- C8: iterating a pattern and collecting rebuilds an equal pattern, and
two patterns built from the same ordered element sequence are equal and
feed the hasher the identical stream (hence hash identically). -/
theorem from_iter_roundtrip_and_hash :
    (∀ p : Pattern, Pattern.from_iter (Pattern.iter p) = p) ∧
    (∀ (xs : List PatternElem) (p q : Pattern),
      p = Pattern.from_iter xs → q = Pattern.from_iter xs →
      p = q ∧ p.hashStream = q.hashStream) := by
  constructor
  · intro p
    rfl
  · rintro xs p q rfl rfl
    exact ⟨rfl, rfl⟩

/-- Witness for C8 at a concrete build sequence. -/
theorem from_iter_roundtrip_and_hash_witness :
    Pattern.from_iter [PatternElem.Plus 3] = Pattern.from_iter [PatternElem.Plus 3] ∧
    (Pattern.from_iter [PatternElem.Plus 3]).hashStream =
      (Pattern.from_iter [PatternElem.Plus 3]).hashStream :=
  from_iter_roundtrip_and_hash.2 [PatternElem.Plus 3] _ _ rfl rfl

/-- When `mapM` over `Option` succeeds, the output has the input's length. -/
theorem mapM_fmtElem_length (l : List PatternElem) :
    ∀ ss : List String, l.mapM fmtElem = some ss → ss.length = l.length := by
  induction l with
  | nil =>
      intro ss h
      rw [List.mapM_nil] at h
      cases h
      rfl
  | cons a l ih =>
      intro ss h
      rw [List.mapM_cons] at h
      cases hfa : fmtElem a <;> rw [hfa] at h
      · simp at h
      · cases hml : l.mapM fmtElem <;> rw [hml] at h
        · simp at h
        · simp only [Option.bind_eq_bind, Option.some_bind, Option.some.injEq, pure] at h
          cases h
          simp [ih _ hml]

/-- The `Display` loop for a pattern produces the comma-space join of the
elements' renderings: `none` if any element panics, and otherwise the
spec's join of the rendered strings. -/
theorem fmtElems_eq_join (l : List PatternElem) :
    fmtElems l = Option.map specRenderJoin (l.mapM fmtElem) := by
  induction l with
  | nil => rfl
  | cons e es ih =>
      cases es with
      | nil =>
          rw [List.mapM_cons, List.mapM_nil]
          cases hfa : fmtElem e <;> simp [fmtElems, hfa, specRenderJoin]
      | cons e2 es2 =>
          rw [List.mapM_cons]
          cases hfa : fmtElem e with
          | none => simp [fmtElems, hfa]
          | some s =>
              cases hml : (e2 :: es2).mapM fmtElem with
              | none =>
                  rw [hml] at ih
                  simp [fmtElems, hfa, ih]
              | some ss =>
                  rw [hml] at ih
                  have hlen := mapM_fmtElem_length _ _ hml
                  cases ss with
                  | nil => simp at hlen
                  | cons s2 ss2 => simp [fmtElems, hfa, ih, specRenderJoin]

/-- C7: rendering a pattern concatenates each element's rendering in
sequence order, comma-space separated (when every element renders, with a
panic propagating otherwise), and the empty pattern renders to `""`. -/
theorem pattern_fmt_is_join (p : Pattern) :
    Pattern.fmt p = Option.map specRenderJoin (p.elems.mapM fmtElem) ∧
    Pattern.fmt Pattern.empty = some "" :=
  ⟨fmtElems_eq_join p.elems, rfl⟩

/-- C1: `has_repeating_types` holds exactly when the operator-type
sequence is a non-trivial repetition of a shorter block: some `k` with
`1 ≤ k < n` divides `n`, at least two full blocks fit (`n / k ≥ 2`), and
`same_operator_type` relates position `i` to position `i % k` for every
`i < n`; in particular patterns of length 0 or 1 never repeat. -/
theorem has_repeating_types_iff (p : Pattern) :
    (p.has_repeating_types = true ↔
      ∃ k : Nat, 1 ≤ k ∧ k < p.len ∧ k ∣ p.len ∧ 2 ≤ p.len / k ∧
        ∀ i, i < p.len →
          (p.elems.getD i default).same_operator_type
            (p.elems.getD (i % k) default) = true) ∧
    (p.len ≤ 1 → p.has_repeating_types = false) := by
  have hmain : p.has_repeating_types = true ↔
      ∃ k : Nat, 1 ≤ k ∧ k < p.len ∧ k ∣ p.len ∧ 2 ≤ p.len / k ∧
        ∀ i, i < p.len →
          (p.elems.getD i default).same_operator_type
            (p.elems.getD (i % k) default) = true := by
    simp only [Pattern.has_repeating_types, is_repeating_with_predicate, Pattern.len,
      List.any_eq_true, List.mem_range, Bool.and_eq_true, decide_eq_true_eq,
      List.all_eq_true]
    constructor
    · rintro ⟨k, hk, ⟨hk0, hmod⟩, hall⟩
      obtain ⟨m, hm⟩ := Nat.dvd_of_mod_eq_zero hmod
      have h1m : 1 < m := by
        have hlt : k * 1 < k * m := by
          rw [Nat.mul_one, ← hm]
          exact hk
        exact Nat.lt_of_mul_lt_mul_left hlt
      refine ⟨k, hk0, hk, Nat.dvd_of_mod_eq_zero hmod, ?_, hall⟩
      rw [hm, Nat.mul_div_cancel_left m hk0]
      exact h1m
    · rintro ⟨k, hk1, hkn, hdvd, -, hall⟩
      have hmod : p.elems.length % k = 0 := by
        obtain ⟨m, hm⟩ := hdvd
        rw [hm]
        exact Nat.mul_mod_right k m
      exact ⟨k, hkn, ⟨hk1, hmod⟩, hall⟩
  refine ⟨hmain, fun hlen => ?_⟩
  cases hb : p.has_repeating_types with
  | false => rfl
  | true =>
      obtain ⟨k, hk1, hkn, -, -, -⟩ := hmain.mp hb
      omega

/-- Witness for C1 at the spec's example `[+1, *2, +5, *9]`: repeating
with block length 2 even though the operand values differ. -/
theorem has_repeating_types_iff_witness :
    (Pattern.new [PatternElem.Plus 1, PatternElem.Mult 2,
      PatternElem.Plus 5, PatternElem.Mult 9]).has_repeating_types = true :=
  (has_repeating_types_iff _).1.mpr
    ⟨2, by decide, by decide, by decide, by decide, by decide⟩

end SeaCanal
